import Mathlib

/-!
Verification of the `mr_sqlite` filter-expression parser and SQLite client.

The definitions below are a shallow embedding of the Python sources:

* `src/mr_sqlite/filters/operators.py` — the operator table (`get_sql_operator`)
  and the negation-prefix helper (`is_negated`);
* `src/mr_sqlite/filters/parser.py` — `FilterParser.parse_filter`,
  `FilterParser.parse_raw_filters`, `FilterParser._convert_value`;
* `src/mr_sqlite/client.py` — `SQLiteClient.query_table` (at the argument
  defaults used by the update pre-check), `SQLiteClient.update_records` and
  `SQLiteClient.execute_sql`, with the relational backend abstracted as a
  `Backend` record of query/update executors.

Python strings are modelled as Lean `String`/`List Char`; the string-method
helpers (`strip`, `split`, `lower`, `isdigit`, `float()` parsing) are modelled
on their ASCII behaviour.  Python exceptions are modelled by `Except` with the
error taxonomy used by the specification (`MalformedFilterError`,
`UnsupportedOperatorError`, `UnsafeOperationError`).
-/

namespace MrSqlite

/-- A Python value produced by the filter parser: `None`, `bool`, `int`,
`float` or `str`.  A float is represented by the exact accepted source text,
so no floating-point arithmetic is modelled. -/
inductive PValue where
  | vNull : PValue
  | vBool : Bool → PValue
  | vInt : Int → PValue
  | vFloat : String → PValue
  | vStr : String → PValue
deriving DecidableEq

/-- Characters removed by Python `str.strip()` (ASCII whitespace). -/
def pyIsSpace (c : Char) : Bool :=
  c == ' ' || c == '\t' || c == '\n' || c == '\r' || c == '\x0b' || c == '\x0c'

/-- Python `str.strip()`: drop whitespace characters from both ends. -/
def stripChars (l : List Char) : List Char :=
  ((l.dropWhile pyIsSpace).reverse.dropWhile pyIsSpace).reverse

/-- Split a character list at the first occurrence of `c`, when present:
`splitFirst c l = some (a, b)` with `l = a ++ c :: b` and `c ∉ a`. -/
def splitFirst (c : Char) : List Char → Option (List Char × List Char)
  | [] => none
  | x :: xs =>
    if x = c then some ([], xs)
    else
      match splitFirst c xs with
      | some (a, b) => some (x :: a, b)
      | none => none

/-- Python `s.split(sep, 2)`: split at the first two occurrences of the
separator only, yielding one, two or three parts. -/
def pySplit2 (c : Char) (l : List Char) : List (List Char) :=
  match splitFirst c l with
  | none => [l]
  | some (a, r) =>
    match splitFirst c r with
    | none => [a, r]
    | some (b, r2) => [a, b, r2]

/-- Python `s.split(sep)` with no limit; the empty string yields `[""]`. -/
def pySplitAll (c : Char) : List Char → List (List Char)
  | [] => [[]]
  | x :: xs =>
    if x = c then [] :: pySplitAll c xs
    else
      match pySplitAll c xs with
      | y :: ys => (x :: y) :: ys
      | [] => [[x]]

/-- Python `str.isdigit()` on its ASCII fragment: nonempty and all decimal
digits. -/
def pyIsDigit (l : List Char) : Bool := !l.isEmpty && l.all Char.isDigit

/-- The numeric value `int(s)` computes for a decimal digit string. -/
def digitsVal (l : List Char) : Nat := l.foldl (fun a c => 10 * a + (c.toNat - 48)) 0

/-- Consume the remainder of a Python float digit-part after its first digit:
`digit (["_"] digit)*`; returns the unconsumed rest. -/
def digitTail : List Char → List Char
  | '_' :: d :: rest => if d.isDigit then digitTail rest else '_' :: d :: rest
  | d :: rest => if d.isDigit then digitTail rest else d :: rest
  | [] => []

/-- Consume a Python float digit-part; `none` when no leading digit. -/
def digitPart (l : List Char) : Option (List Char) :=
  match l with
  | d :: rest => if d.isDigit then some (digitTail rest) else none
  | [] => none

/-- Accept the end of a float literal after the mantissa: either nothing, or an
exponent `e [sign] digitpart` consuming the whole rest (input lowercased). -/
def expPartOk : List Char → Bool
  | [] => true
  | 'e' :: rest =>
    let rest2 := match rest with
      | '+' :: r => r
      | '-' :: r => r
      | r => r
    match digitPart rest2 with
    | some [] => true
    | _ => false
  | _ => false

/-- Accept a lowercased, sign-stripped decimal float literal:
`digitpart [. [digitpart]] [exp]` or `. digitpart [exp]`. -/
def decimalFloatOk (l : List Char) : Bool :=
  match digitPart l with
  | some rest =>
    match rest with
    | '.' :: rest2 =>
      match digitPart rest2 with
      | some rest3 => expPartOk rest3
      | none => expPartOk rest2
    | _ => expPartOk rest
  | none =>
    match l with
    | '.' :: rest2 =>
      match digitPart rest2 with
      | some rest3 => expPartOk rest3
      | none => false
    | _ => false

/-- Python `float(s)` succeeds: strip whitespace, lowercase, drop one optional
sign, then `inf`, `infinity`, `nan` or a decimal float literal. -/
def pyFloatOk (l : List Char) : Bool :=
  let t := (stripChars l).map Char.toLower
  let t2 := match t with
    | '+' :: r => r
    | '-' :: r => r
    | r => r
  t2 == "inf".data || t2 == "infinity".data || t2 == "nan".data || decimalFloatOk t2

/-- `FilterParser._convert_value`: coerce a filter value string to `None`, a
boolean, an integer, a float or the unchanged string, in that order. -/
def convert_value (value : List Char) : PValue :=
  if value.map Char.toLower = "null".data then .vNull
  else if value.map Char.toLower = "true".data then .vBool true
  else if value.map Char.toLower = "false".data then .vBool false
  else if pyIsDigit value then .vInt (digitsVal value : Int)
  else if pyFloatOk value then .vFloat (String.mk value)
  else .vStr (String.mk value)

/-- `SQLOperatorMap.get_sql_operator`: the fixed ten-entry operator table.
Any other token — including the bare `"not"`, which is a member of the
`FilterOperator` enum but has no entry in `OPERATORS` — yields `none`
(the Python code raises `ValueError`, the spec's `UnsupportedOperatorError`). -/
def get_sql_operator (op : List Char) : Option String :=
  if op = "eq".data then some "="
  else if op = "neq".data then some "!="
  else if op = "gt".data then some ">"
  else if op = "gte".data then some ">="
  else if op = "lt".data then some "<"
  else if op = "lte".data then some "<="
  else if op = "is".data then some "IS"
  else if op = "like".data then some "LIKE"
  else if op = "ilike".data then some "LIKE COLLATE NOCASE"
  else if op = "in".data then some "IN"
  else none

/-- `SQLOperatorMap.is_negated`: detect and strip a leading `"not."` from the
operator token, returning the negation flag and the base operator. -/
def is_negated (op : List Char) : Bool × List Char :=
  if "not.".data.isPrefixOf op then (true, op.drop 4) else (false, op)

/-- The error kinds of the filter parser (both are `ValueError` in Python; the
spec names them `MalformedFilterError` and `UnsupportedOperatorError`). -/
inductive ParseError where
  | malformedFilter : ParseError
  | unsupportedOperator : ParseError
deriving DecidableEq

/-- The negation marker interpolated into a condition: `"NOT "` when the
negation flag is set, `""` otherwise (Python `'' if not is_negated else 'NOT '`). -/
def negStr (b : Bool) : String := if b then "NOT " else ""

/-- Python `sep.join(pieces)`. -/
def pyJoin (sep : String) : List String → String
  | [] => ""
  | [x] => x
  | x :: y :: rest => x ++ sep ++ pyJoin sep (y :: rest)

/-- The body of `FilterParser.parse_filter` after the initial `strip()`:
split on the first two dots into column/operator/value, strip negation,
resolve the SQL operator, and build the condition fragment and parameter list
(`in` list, `is` literal, or the single-parameter path with value coercion). -/
def parse_filter_core (l : List Char) : Except ParseError (String × List PValue) :=
  match pySplit2 '.' l with
  | [column, oper, value] =>
    let n := is_negated oper
    match get_sql_operator n.2 with
    | none => .error .unsupportedOperator
    | some sql_operator =>
      if n.2 = "in".data then
        let values := pySplitAll ',' value
        let placeholders := pyJoin "," (values.map fun _ => "?")
        .ok (String.mk column ++ " " ++ negStr n.1 ++ sql_operator ++ " (" ++ placeholders ++ ")",
             values.map fun v => PValue.vStr (String.mk v))
      else if n.2 = "is".data ∧ (value.map Char.toLower = "null".data ∨
          value.map Char.toLower = "true".data ∨ value.map Char.toLower = "false".data) then
        .ok (String.mk column ++ " " ++ negStr n.1 ++ sql_operator ++ " " ++
              String.mk (value.map Char.toUpper), [])
      else
        .ok (String.mk column ++ " " ++ negStr n.1 ++ sql_operator ++ " ?", [convert_value value])
  | _ => .error .malformedFilter

/-- `FilterParser.parse_filter`: `raw_filter.strip()` followed by the split /
translate body above. -/
def parse_filter (raw_filter : String) : Except ParseError (String × List PValue) :=
  parse_filter_core (stripChars raw_filter.data)

/-- The loop of `FilterParser.parse_raw_filters`: parse each comma-delimited
sub-expression, appending the condition and extending the parameters on
success, skipping the sub-expression (with a logged warning) on failure. -/
def collectFilters : List (List Char) → List String × List PValue
  | [] => ([], [])
  | e :: rest =>
    match parse_filter (String.mk e) with
    | .ok (c, ps) => (c :: (collectFilters rest).1, ps ++ (collectFilters rest).2)
    | .error _ => collectFilters rest

/-- `FilterParser.parse_raw_filters`: split on commas, parse each sub-expression
best-effort, join the surviving conditions with `" AND "`; empty input or no
surviving condition gives `("", [])`. -/
def parse_raw_filters (raw_filters : String) : String × List PValue :=
  if raw_filters = "" then ("", [])
  else
    let r := collectFilters (pySplitAll ',' raw_filters.data)
    if r.1 = [] then ("", [])
    else (pyJoin " AND " r.1, r.2)

/-- A database row as produced by `SQLiteClient._dict_factory`: ordered
column-name/value pairs. -/
abbrev Row := List (String × PValue)

/-- The relational backend behind the client: executes a parameterized
statement returning rows (`cursor.execute` + `fetchall`), or an UPDATE
returning `cursor.rowcount`. -/
structure Backend where
  runSelect : String → List PValue → List Row
  runUpdate : String → List PValue → Int

/-- The WHERE-clause construction shared verbatim by `query_table`,
`update_records` and `delete_records`: one `"col = ?"` clause per equality
filter (parameters in the same order), then the raw-filter clause and its
parameters when the raw filter string is present, nonempty and produced a
nonempty clause. -/
def build_where (filters : List (String × PValue)) (raw_filters : Option String) :
    List String × List PValue :=
  let base := (filters.map fun p => p.1 ++ " = ?", filters.map Prod.snd)
  match raw_filters with
  | none => base
  | some rf =>
    if rf = "" then base
    else
      let r := parse_raw_filters rf
      if r.1 = "" then base
      else (base.1 ++ [r.1], base.2 ++ r.2)

/-- `SQLiteClient.query_table` at its default arguments (`select="*"`, no
`order`/`limit`/`offset`) — exactly the invocation used by the
`update_records` pre-check, whose optional clauses are all absent. -/
def query_table (db : Backend) (table : String) (filters : List (String × PValue))
    (raw_filters : Option String) : List Row :=
  let w := build_where filters raw_filters
  let query := "SELECT * FROM " ++ table ++
    (if w.1 = [] then "" else " WHERE " ++ pyJoin " AND " w.1)
  db.runSelect query w.2

/-- The value `update_records` returns: the Python code returns the empty list
`[]` when the pre-check matches no rows, and the integer `cursor.rowcount`
otherwise. -/
inductive UpdateResult where
  | emptyList : UpdateResult
  | count : Int → UpdateResult
deriving DecidableEq

/-- The UPDATE statement text built by `update_records`:
`UPDATE <table> SET col = ?, … [WHERE …]`. -/
def update_query (table : String) (data filters : List (String × PValue))
    (raw_filters : Option String) : String :=
  let set_clause := pyJoin ", " (data.map fun p => p.1 ++ " = ?")
  let w := build_where filters raw_filters
  "UPDATE " ++ table ++ " SET " ++ set_clause ++
    (if w.1 = [] then "" else " WHERE " ++ pyJoin " AND " w.1)

/-- `SQLiteClient.update_records`: run the pre-check select with the same
filters; if it returns no rows, return `[]` without touching the backend
further; otherwise execute the UPDATE (SET parameters first, then WHERE
parameters) and return the backend-reported count.  The second component
records the UPDATE statements actually issued to the backend. -/
def update_records (db : Backend) (table : String) (data filters : List (String × PValue))
    (raw_filters : Option String) : UpdateResult × List (String × List PValue) :=
  let records_before := query_table db table filters raw_filters
  if records_before = [] then (.emptyList, [])
  else
    let query := update_query table data filters raw_filters
    let params := data.map Prod.snd ++ (build_where filters raw_filters).2
    (.count (db.runUpdate query params), [(query, params)])

/-- The error raised by `execute_sql`'s denylist check (Python `ValueError`,
the spec's `UnsafeOperationError`). -/
inductive ExecError where
  | destructiveOperation : ExecError
deriving DecidableEq

/-- Python's substring test `needle in hay` on character lists. -/
def containsSub (needle : List Char) : List Char → Bool
  | [] => needle.isEmpty
  | c :: rest => needle.isPrefixOf (c :: rest) || containsSub needle rest

/-- The denylisted keywords checked by `execute_sql`. -/
def UNSAFE_KEYWORDS : List String := ["drop", "truncate", "delete", "update", "alter"]

/-- `SQLiteClient.execute_sql` (its `unsafe` keyword argument is named
`allowDestructive` here): when the flag is false and the lowercased, stripped
statement text contains a denylisted keyword, fail without touching the
backend; otherwise execute the statement.  The second component records the
statements actually issued to the backend. -/
def execute_sql (db : Backend) (query : String) (params : List PValue)
    (allowDestructive : Bool) : Except ExecError (List Row) × List (String × List PValue) :=
  if allowDestructive = false then
    let query_lower := stripChars (query.data.map Char.toLower)
    if UNSAFE_KEYWORDS.any (fun k => containsSub k.data query_lower) then
      (.error .destructiveOperation, [])
    else (.ok (db.runSelect query params), [(query, params)])
  else (.ok (db.runSelect query params), [(query, params)])

/-- The keys of the fixed ten-entry `SQLOperatorMap.OPERATORS` table, in table
order. -/
def OPERATORS_keys : List String :=
  ["eq", "neq", "gt", "gte", "lt", "lte", "is", "like", "ilike", "in"]

/-- Value coercion as worded by the specification (for comparison with
`convert_value`): null if case-insensitively "null"; boolean if
case-insensitively "true"/"false"; integer if composed entirely of ASCII
digits; else floating-point if it parses as one; else the string unchanged. -/
def coerce_spec (value : List Char) : PValue :=
  if value.map Char.toLower = "null".data then .vNull
  else if value.map Char.toLower = "true".data then .vBool true
  else if value.map Char.toLower = "false".data then .vBool false
  else if value ≠ [] ∧ ∀ c ∈ value, c.isDigit then .vInt (digitsVal value : Int)
  else if pyFloatOk value then .vFloat (String.mk value)
  else .vStr (String.mk value)

/-- Number of `?` placeholders occurring in a SQL fragment. -/
def countQ (s : String) : Nat := s.data.count '?'

/-! ### Helper lemmas about the string primitives -/

theorem splitFirst_of_nomem {c : Char} : ∀ {l : List Char}, c ∉ l → splitFirst c l = none := by
  intro l
  induction l with
  | nil => intro _; rfl
  | cons x xs ih =>
    intro h
    rw [splitFirst]
    have hx : ¬ x = c := fun e => h (e ▸ List.mem_cons_self x xs)
    rw [if_neg hx, ih fun hm => h (List.mem_cons_of_mem x hm)]

theorem splitFirst_of_mem {c : Char} : ∀ {l : List Char}, c ∈ l →
    ∃ a b, splitFirst c l = some (a, b) := by
  intro l
  induction l with
  | nil => intro h; cases h
  | cons x xs ih =>
    intro h
    by_cases hx : x = c
    · exact ⟨[], xs, by rw [splitFirst, if_pos hx]⟩
    · have hmem : c ∈ xs := by
        rcases List.mem_cons.mp h with rfl | hm
        · exact absurd rfl hx
        · exact hm
      obtain ⟨a, b, hab⟩ := ih hmem
      exact ⟨x :: a, b, by rw [splitFirst, if_neg hx]; simp only [hab]⟩

theorem splitFirst_none {c : Char} {l : List Char} : splitFirst c l = none ↔ c ∉ l := by
  constructor
  · intro h hmem
    obtain ⟨a, b, hab⟩ := splitFirst_of_mem hmem
    rw [h] at hab
    cases hab
  · exact splitFirst_of_nomem

theorem splitFirst_some {c : Char} : ∀ {l a b : List Char},
    splitFirst c l = some (a, b) → l = a ++ c :: b ∧ c ∉ a := by
  intro l
  induction l with
  | nil => intro a b h; simp [splitFirst] at h
  | cons x xs ih =>
    intro a b h
    rw [splitFirst] at h
    by_cases hx : x = c
    · rw [if_pos hx] at h
      injection h with h'
      injection h' with ha hb
      subst ha; subst hb
      exact ⟨by rw [hx, List.nil_append], by simp⟩
    · rw [if_neg hx] at h
      split at h
      · rename_i a' b' h2
        injection h with h'
        injection h' with ha hb
        subst ha; subst hb
        obtain ⟨hxs, hca⟩ := ih h2
        refine ⟨by rw [hxs]; rfl, ?_⟩
        intro hmem
        rcases List.mem_cons.mp hmem with rfl | hm
        · exact hx rfl
        · exact hca hm
      · cases h

theorem pySplit2_eq_none {c : Char} {l : List Char} (h : splitFirst c l = none) :
    pySplit2 c l = [l] := by
  simp only [pySplit2, h]

theorem pySplit2_eq_one {c : Char} {l a r : List Char} (h1 : splitFirst c l = some (a, r))
    (h2 : splitFirst c r = none) : pySplit2 c l = [a, r] := by
  simp only [pySplit2, h1, h2]

theorem pySplit2_eq_two {c : Char} {l a r b r2 : List Char}
    (h1 : splitFirst c l = some (a, r)) (h2 : splitFirst c r = some (b, r2)) :
    pySplit2 c l = [a, b, r2] := by
  simp only [pySplit2, h1, h2]

theorem count_of_splitFirst {c : Char} {l a b : List Char}
    (h : splitFirst c l = some (a, b)) : l.count c = b.count c + 1 := by
  obtain ⟨rfl, hca⟩ := splitFirst_some h
  rw [List.count_append, List.count_cons_self]
  have h0 : a.count c = 0 := List.count_eq_zero.mpr hca
  omega

theorem pySplit2_len3_iff {c : Char} {l : List Char} :
    (pySplit2 c l).length = 3 ↔ 2 ≤ l.count c := by
  cases h1 : splitFirst c l with
  | none =>
    have h0 : l.count c = 0 := List.count_eq_zero.mpr (splitFirst_none.mp h1)
    rw [pySplit2_eq_none h1]
    simp only [List.length_cons, List.length_nil, h0]
    omega
  | some p =>
    obtain ⟨a, r⟩ := p
    have hc1 := count_of_splitFirst h1
    cases h2 : splitFirst c r with
    | none =>
      have h0 : r.count c = 0 := List.count_eq_zero.mpr (splitFirst_none.mp h2)
      rw [pySplit2_eq_one h1 h2]
      simp only [List.length_cons, List.length_nil]
      omega
    | some q =>
      obtain ⟨b, r2⟩ := q
      have hc2 := count_of_splitFirst h2
      rw [pySplit2_eq_two h1 h2]
      exact ⟨fun _ => by omega, fun _ => rfl⟩

theorem pySplit2_three {c : Char} {l x y z : List Char}
    (h : pySplit2 c l = [x, y, z]) :
    l = x ++ c :: (y ++ c :: z) ∧ c ∉ x ∧ c ∉ y := by
  cases h1 : splitFirst c l with
  | none => rw [pySplit2_eq_none h1] at h; cases h
  | some p =>
    obtain ⟨a, r⟩ := p
    cases h2 : splitFirst c r with
    | none => rw [pySplit2_eq_one h1 h2] at h; cases h
    | some q =>
      obtain ⟨b, r2⟩ := q
      rw [pySplit2_eq_two h1 h2] at h
      injection h with e1 h
      injection h with e2 h
      injection h with e3 h
      subst e1; subst e2; subst e3
      obtain ⟨hl, hca⟩ := splitFirst_some h1
      obtain ⟨hr, hcb⟩ := splitFirst_some h2
      subst hr
      exact ⟨hl, hca, hcb⟩

theorem count_dropWhile {p : Char → Bool} {c : Char} (hc : p c = false) (l : List Char) :
    (l.dropWhile p).count c = l.count c := by
  conv_rhs => rw [← List.takeWhile_append_dropWhile p l]
  rw [List.count_append]
  have h0 : (l.takeWhile p).count c = 0 := by
    rw [List.count_eq_zero]
    intro hmem
    have hpc := List.mem_takeWhile_imp hmem
    rw [hc] at hpc
    cases hpc
  omega

theorem count_stripChars {c : Char} (hc : pyIsSpace c = false) (l : List Char) :
    (stripChars l).count c = l.count c := by
  rw [stripChars, List.count_reverse, count_dropWhile hc, List.count_reverse,
    count_dropWhile hc]

theorem stripChars_append_left {w l : List Char} (hw : ∀ x ∈ w, pyIsSpace x = true) :
    stripChars (w ++ l) = stripChars l := by
  rw [stripChars, stripChars, List.dropWhile_append_of_pos hw]

theorem stripChars_append_right {l w : List Char} (hw : ∀ x ∈ w, pyIsSpace x = true) :
    stripChars (l ++ w) = stripChars l := by
  rw [stripChars, stripChars, List.dropWhile_append]
  by_cases h : (l.dropWhile pyIsSpace).isEmpty
  · rw [if_pos h]
    have h1 : l.dropWhile pyIsSpace = [] := by rwa [List.isEmpty_iff] at h
    have h2 : w.dropWhile pyIsSpace = [] := List.dropWhile_eq_nil_iff.mpr hw
    rw [h1, h2]
  · rw [if_neg h, List.reverse_append,
      List.dropWhile_append_of_pos (fun x hx => hw x (List.mem_reverse.mp hx))]

theorem stripChars_pad {w1 w2 l : List Char} (h1 : ∀ x ∈ w1, pyIsSpace x = true)
    (h2 : ∀ x ∈ w2, pyIsSpace x = true) :
    stripChars (w1 ++ l ++ w2) = stripChars l := by
  rw [List.append_assoc, stripChars_append_left h1, stripChars_append_right h2]

theorem stripChars_subset {l : List Char} : ∀ x ∈ stripChars l, x ∈ l := by
  intro x hx
  rw [stripChars, List.mem_reverse] at hx
  have h1 := (List.dropWhile_suffix pyIsSpace).subset hx
  rw [List.mem_reverse] at h1
  exact (List.dropWhile_suffix pyIsSpace).subset h1

theorem pySplitAll_nil (c : Char) : pySplitAll c [] = [[]] := rfl

theorem pySplitAll_cons_eq {c x : Char} (xs : List Char) (hx : x = c) :
    pySplitAll c (x :: xs) = [] :: pySplitAll c xs := by
  rw [pySplitAll, if_pos hx]

theorem pySplitAll_cons_ne {c x : Char} {xs : List Char} {y : List Char}
    {ys : List (List Char)} (hx : ¬ x = c) (h : pySplitAll c xs = y :: ys) :
    pySplitAll c (x :: xs) = (x :: y) :: ys := by
  rw [pySplitAll, if_neg hx]
  simp only [h]

theorem pySplitAll_ne_nil {c : Char} : ∀ {l : List Char}, pySplitAll c l ≠ [] := by
  intro l
  induction l with
  | nil => intro h; cases h
  | cons x xs ih =>
    by_cases hx : x = c
    · rw [pySplitAll_cons_eq xs hx]; intro h; cases h
    · cases hsp : pySplitAll c xs with
      | nil => exact absurd hsp ih
      | cons y ys => rw [pySplitAll_cons_ne hx hsp]; intro h; cases h

theorem pySplitAll_subset {c : Char} : ∀ {l : List Char},
    ∀ e ∈ pySplitAll c l, ∀ x ∈ e, x ∈ l := by
  intro l
  induction l with
  | nil =>
    intro e he x hx
    rw [pySplitAll_nil] at he
    rcases List.mem_cons.mp he with rfl | hm
    · cases hx
    · cases hm
  | cons a xs ih =>
    intro e he x hx
    by_cases ha : a = c
    · rw [pySplitAll_cons_eq xs ha] at he
      rcases List.mem_cons.mp he with rfl | hm
      · cases hx
      · exact List.mem_cons_of_mem a (ih e hm x hx)
    · cases hsp : pySplitAll c xs with
      | nil => exact absurd hsp pySplitAll_ne_nil
      | cons y ys =>
        rw [pySplitAll_cons_ne ha hsp] at he
        rcases List.mem_cons.mp he with rfl | hm
        · rcases List.mem_cons.mp hx with rfl | hmx
          · exact List.mem_cons_self x xs
          · have hy : y ∈ pySplitAll c xs := by rw [hsp]; exact List.mem_cons_self y ys
            exact List.mem_cons_of_mem a (ih y hy x hmx)
        · have hys : e ∈ pySplitAll c xs := by rw [hsp]; exact List.mem_cons_of_mem y hm
          exact List.mem_cons_of_mem a (ih e hys x hx)

theorem count_pyJoin {c : Char} {sep : String} (hsep : sep.data.count c = 0) :
    ∀ l : List String, (pyJoin sep l).data.count c = (l.map fun s => s.data.count c).sum := by
  intro l
  induction l with
  | nil => rfl
  | cons x xs ih =>
    cases xs with
    | nil => simp [pyJoin]
    | cons y rest =>
      rw [pyJoin]
      rw [String.data_append, String.data_append, List.count_append, List.count_append,
        hsep, ih]
      simp only [List.map_cons, List.sum_cons]
      omega

theorem containsSub_iff {n : List Char} : ∀ {h : List Char},
    containsSub n h = true ↔ n <:+: h := by
  intro h
  induction h with
  | nil =>
    rw [containsSub, List.isEmpty_iff]
    constructor
    · intro he; exact he ▸ List.infix_refl []
    · intro hi; exact List.eq_nil_of_infix_nil hi
  | cons c rest ih =>
    rw [containsSub, Bool.or_eq_true, ih, List.isPrefixOf_iff_prefix, List.infix_cons_iff]

theorem infix_dropWhile_iff {p : Char → Bool} {k : List Char} (hk : k ≠ [])
    (hkp : ∀ x ∈ k, p x = false) (l : List Char) :
    k <:+: l.dropWhile p ↔ k <:+: l := by
  constructor
  · intro h
    exact h.trans (List.dropWhile_suffix p).isInfix
  · rintro ⟨s, t, rfl⟩
    rw [List.append_assoc, List.dropWhile_append]
    by_cases hs : (s.dropWhile p).isEmpty
    · rw [if_pos hs]
      obtain ⟨kh, kt, rfl⟩ : ∃ kh kt, k = kh :: kt := by
        cases k with
        | nil => exact absurd rfl hk
        | cons kh kt => exact ⟨kh, kt, rfl⟩
      rw [List.cons_append, List.dropWhile_cons,
        if_neg (by rw [hkp kh (List.mem_cons_self kh kt)]; exact Bool.false_ne_true)]
      exact ⟨[], t, rfl⟩
    · rw [if_neg hs]
      exact ⟨s.dropWhile p, t, by rw [List.append_assoc]⟩

theorem infix_stripChars_iff {k l : List Char} (hk : k ≠ [])
    (hkp : ∀ x ∈ k, pyIsSpace x = false) :
    k <:+: stripChars l ↔ k <:+: l := by
  rw [stripChars]
  have hkr : k.reverse ≠ [] := fun h => hk (by simpa using congrArg List.reverse h)
  have hkpr : ∀ x ∈ k.reverse, pyIsSpace x = false :=
    fun x hx => hkp x (List.mem_reverse.mp hx)
  calc k <:+: ((l.dropWhile pyIsSpace).reverse.dropWhile pyIsSpace).reverse
      ↔ k.reverse <:+: (l.dropWhile pyIsSpace).reverse.dropWhile pyIsSpace := by
        rw [← List.reverse_infix, List.reverse_reverse]
    _ ↔ k.reverse <:+: (l.dropWhile pyIsSpace).reverse :=
        infix_dropWhile_iff hkr hkpr _
    _ ↔ k <:+: l.dropWhile pyIsSpace := List.reverse_infix
    _ ↔ k <:+: l := infix_dropWhile_iff hk hkp l

theorem parse_core_shape1 {l : List Char} (h : splitFirst '.' l = none) :
    parse_filter_core l = .error .malformedFilter := by
  simp only [parse_filter_core, pySplit2_eq_none h]

theorem parse_core_shape2 {l a r : List Char} (h1 : splitFirst '.' l = some (a, r))
    (h2 : splitFirst '.' r = none) :
    parse_filter_core l = .error .malformedFilter := by
  simp only [parse_filter_core, pySplit2_eq_one h1 h2]

theorem parse_core_three_unsupported {l col op v : List Char}
    (h : pySplit2 '.' l = [col, op, v]) (hop : get_sql_operator (is_negated op).2 = none) :
    parse_filter_core l = .error .unsupportedOperator := by
  simp only [parse_filter_core, h, hop]

theorem parse_core_three_in {l col op v : List Char}
    (h : pySplit2 '.' l = [col, op, v]) (hin : (is_negated op).2 = "in".data) :
    parse_filter_core l =
      .ok (String.mk col ++ " " ++ negStr (is_negated op).1 ++ "IN" ++ " (" ++
            pyJoin "," ((pySplitAll ',' v).map fun _ => "?") ++ ")",
          (pySplitAll ',' v).map fun x => PValue.vStr (String.mk x)) := by
  have hop : get_sql_operator (is_negated op).2 = some "IN" := by rw [hin]; rfl
  simp only [parse_filter_core, h, hop, hin, if_pos]
  rfl

theorem parse_core_three_is_lit {l col op v : List Char}
    (h : pySplit2 '.' l = [col, op, v]) (his : (is_negated op).2 = "is".data)
    (hv : v.map Char.toLower = "null".data ∨ v.map Char.toLower = "true".data ∨
      v.map Char.toLower = "false".data) :
    parse_filter_core l =
      .ok (String.mk col ++ " " ++ negStr (is_negated op).1 ++ "IS" ++ " " ++
            String.mk (v.map Char.toUpper), []) := by
  have hop : get_sql_operator (is_negated op).2 = some "IS" := by rw [his]; rfl
  have hne : ¬ (is_negated op).2 = "in".data := by rw [his]; decide
  simp only [parse_filter_core, h, hop, if_neg hne, if_pos (show _ ∧ _ from ⟨his, hv⟩)]

theorem parse_core_three_single {l col op v : List Char} {w : String}
    (h : pySplit2 '.' l = [col, op, v]) (hop : get_sql_operator (is_negated op).2 = some w)
    (hnin : ¬ (is_negated op).2 = "in".data)
    (hnis : ¬((is_negated op).2 = "is".data ∧ (v.map Char.toLower = "null".data ∨
      v.map Char.toLower = "true".data ∨ v.map Char.toLower = "false".data))) :
    parse_filter_core l =
      .ok (String.mk col ++ " " ++ negStr (is_negated op).1 ++ w ++ " ?",
          [convert_value v]) := by
  simp only [parse_filter_core, h, hop, if_neg hnin, if_neg hnis]

theorem parse_core_three_ok {l col op v : List Char} {w : String}
    (h : pySplit2 '.' l = [col, op, v]) (hop : get_sql_operator (is_negated op).2 = some w) :
    ∃ r, parse_filter_core l = .ok r := by
  by_cases hin : (is_negated op).2 = "in".data
  · exact ⟨_, parse_core_three_in h hin⟩
  · by_cases his : (is_negated op).2 = "is".data ∧ (v.map Char.toLower = "null".data ∨
      v.map Char.toLower = "true".data ∨ v.map Char.toLower = "false".data)
    · exact ⟨_, parse_core_three_is_lit h his.1 his.2⟩
    · exact ⟨_, parse_core_three_single h hop hin his⟩

set_option maxHeartbeats 2000000 in
theorem get_sql_operator_none_iff {op : List Char} :
    get_sql_operator op = none ↔ op ∉ OPERATORS_keys.map String.data := by
  simp only [OPERATORS_keys, List.map_cons, List.map_nil, List.mem_cons,
    List.not_mem_nil, or_false]
  unfold get_sql_operator
  split_ifs <;> simp_all

set_option maxHeartbeats 2000000 in
theorem get_sql_operator_no_qmark {op : List Char} {w : String}
    (h : get_sql_operator op = some w) : w.data.count '?' = 0 := by
  unfold get_sql_operator at h
  split_ifs at h <;>
    first
    | (injection h with h'; exact h' ▸ (by decide))
    | cases h

theorem negStr_no_qmark (b : Bool) : (negStr b).data.count '?' = 0 := by
  cases b <;> decide

theorem toUpper_eq_qmark {d : Char} (h : d.toUpper = '?') : d = '?' := by
  by_cases hn : d.toNat ≥ 97 ∧ d.toNat ≤ 122
  · exfalso
    have h' : Char.ofNat (d.toNat - 32) = '?' := by
      simpa [Char.toUpper, hn] using h
    have hv : Nat.isValidChar (d.toNat - 32) := Or.inl (by omega)
    have h2 := congrArg Char.toNat h'
    rw [Char.ofNat, dif_pos hv] at h2
    have h3 : (Char.ofNatAux (d.toNat - 32) hv).toNat = d.toNat - 32 := rfl
    rw [h3] at h2
    have h4 : ('?').toNat = 63 := rfl
    omega
  · simpa [Char.toUpper, hn] using h

theorem dropWhile_eq_self_of {p : Char → Bool} {l : List Char}
    (h : ∀ c ∈ l, p c = false) : l.dropWhile p = l := by
  cases l with
  | nil => rfl
  | cons x xs =>
    rw [List.dropWhile_cons,
      if_neg (by rw [h x (List.mem_cons_self x xs)]; exact Bool.false_ne_true)]

theorem stripChars_of_no_space {l : List Char} (h : ∀ c ∈ l, pyIsSpace c = false) :
    stripChars l = l := by
  rw [stripChars, dropWhile_eq_self_of h,
    dropWhile_eq_self_of (fun c hc => h c (List.mem_reverse.mp hc)), List.reverse_reverse]

theorem splitFirst_append {c : Char} {b : List Char} : ∀ {a : List Char}, c ∉ a →
    splitFirst c (a ++ c :: b) = some (a, b) := by
  intro a
  induction a with
  | nil => intro _; rw [List.nil_append, splitFirst, if_pos rfl]
  | cons x xs ih =>
    intro h
    have hx : ¬ x = c := fun e => h (e ▸ List.mem_cons_self x xs)
    rw [List.cons_append, splitFirst, if_neg hx]
    simp only [ih fun hm => h (List.mem_cons_of_mem x hm)]

theorem pySplit2_of_decomp {col op v : List Char} (hc : '.' ∉ col) (ho : '.' ∉ op) :
    pySplit2 '.' (col ++ '.' :: (op ++ '.' :: v)) = [col, op, v] :=
  pySplit2_eq_two (splitFirst_append hc) (splitFirst_append ho)

theorem convert_eq_coerce (v : List Char) : convert_value v = coerce_spec v := by
  have hd : (pyIsDigit v = true) ↔ (v ≠ [] ∧ ∀ c ∈ v, c.isDigit = true) := by
    rw [pyIsDigit, Bool.and_eq_true, List.all_eq_true, Bool.not_eq_true',
      List.isEmpty_eq_false_iff_exists_mem]
    constructor
    · rintro ⟨⟨x, hx⟩, h2⟩
      exact ⟨fun e => (by rw [e] at hx; cases hx), h2⟩
    · rintro ⟨h1, h2⟩
      refine ⟨?_, h2⟩
      cases v with
      | nil => exact absurd rfl h1
      | cons x xs => exact ⟨x, List.mem_cons_self x xs⟩
  rw [convert_value, coerce_spec]
  simp only [hd]

theorem countQ_append (a b : String) : countQ (a ++ b) = countQ a + countQ b := by
  rw [countQ, countQ, countQ, String.data_append, List.count_append]

theorem countQ_placeholders (xs : List (List Char)) :
    countQ (pyJoin "," (xs.map fun _ => "?")) = xs.length := by
  have h0 : (("," : String)).data.count '?' = 0 := by decide
  rw [countQ, count_pyJoin h0, List.map_map]
  have h1 : ((fun s : String => s.data.count '?') ∘ fun _ : List Char => ("?" : String)) =
      fun _ : List Char => 1 := by
    funext x
    simp only [Function.comp_apply]
    decide
  rw [h1]
  induction xs with
  | nil => rfl
  | cons x t ih => simp only [List.map_cons, List.sum_cons, ih, List.length_cons]; omega

/-- A string whose characters avoid both whitespace and the separators keeps
`strip` the identity; utility form of the fragment placeholder invariant:
whenever `parse_filter` succeeds on an input without `?`, the fragment's
placeholder count equals the parameter count. -/
theorem parse_filter_count {s : String} (hq : '?' ∉ s.data) {c : String} {ps : List PValue}
    (h : parse_filter s = .ok (c, ps)) : countQ c = ps.length := by
  rw [parse_filter] at h
  have hqs : '?' ∉ stripChars s.data := fun hm => hq (stripChars_subset '?' hm)
  cases h1 : splitFirst '.' (stripChars s.data) with
  | none => rw [parse_core_shape1 h1] at h; cases h
  | some p =>
    obtain ⟨a, r⟩ := p
    cases h2 : splitFirst '.' r with
    | none => rw [parse_core_shape2 h1 h2] at h; cases h
    | some q =>
      obtain ⟨b, r2⟩ := q
      have hparts := pySplit2_eq_two h1 h2
      obtain ⟨hdec, hca, hcb⟩ := pySplit2_three hparts
      have hqa : '?' ∉ a := fun hm => hqs (by rw [hdec]; exact List.mem_append_left _ hm)
      have hqv : '?' ∉ r2 := fun hm => hqs (by
        rw [hdec]
        exact List.mem_append_right _ (List.mem_cons_of_mem _
          (List.mem_append_right _ (List.mem_cons_of_mem _ hm))))
      have hqa0 : a.count '?' = 0 := List.count_eq_zero.mpr hqa
      have e1 : countQ (String.mk a) = 0 := hqa0
      have e2 : countQ (negStr (is_negated b).1) = 0 := negStr_no_qmark _
      have e3 : countQ " " = 0 := by decide
      cases hop : get_sql_operator (is_negated b).2 with
      | none => rw [parse_core_three_unsupported hparts hop] at h; cases h
      | some w =>
        have hw0 : countQ w = 0 := get_sql_operator_no_qmark hop
        by_cases hin : (is_negated b).2 = "in".data
        · rw [parse_core_three_in hparts hin] at h
          injection h with h'
          injection h' with hc hps
          subst hc; subst hps
          simp only [countQ_append]
          rw [countQ_placeholders, List.length_map]
          have e4 : countQ "IN" = 0 := by decide
          have e5 : countQ " (" = 0 := by decide
          have e6 : countQ ")" = 0 := by decide
          omega
        · by_cases hlit : (is_negated b).2 = "is".data ∧ (r2.map Char.toLower = "null".data ∨
            r2.map Char.toLower = "true".data ∨ r2.map Char.toLower = "false".data)
          · rw [parse_core_three_is_lit hparts hlit.1 hlit.2] at h
            injection h with h'
            injection h' with hc hps
            subst hc; subst hps
            simp only [countQ_append]
            have e4 : countQ "IS" = 0 := by decide
            have e5 : countQ (String.mk (r2.map Char.toUpper)) = 0 := by
              rw [countQ, List.count_eq_zero]
              intro hm
              obtain ⟨d, hd, hdq⟩ := List.mem_map.mp hm
              exact hqv (toUpper_eq_qmark hdq ▸ hd)
            simp only [List.length_nil]
            omega
          · rw [parse_core_three_single hparts hop hin hlit] at h
            injection h with h'
            injection h' with hc hps
            subst hc; subst hps
            simp only [countQ_append]
            have e4 : countQ " ?" = 1 := by decide
            simp only [List.length_cons, List.length_nil]
            omega


theorem pySplit2_len_le (c : Char) (l : List Char) : (pySplit2 c l).length ≤ 3 := by
  cases h1 : splitFirst c l with
  | none => rw [pySplit2_eq_none h1]; simp
  | some p =>
    obtain ⟨a, r⟩ := p
    cases h2 : splitFirst c r with
    | none => rw [pySplit2_eq_one h1 h2]; simp
    | some q =>
      obtain ⟨b, r2⟩ := q
      rw [pySplit2_eq_two h1 h2]; simp

theorem collectFilters_eq : ∀ es : List (List Char),
    collectFilters es =
      ((es.filterMap fun e => (parse_filter (String.mk e)).toOption).map Prod.fst,
       ((es.filterMap fun e => (parse_filter (String.mk e)).toOption).map Prod.snd).flatten) := by
  intro es
  induction es with
  | nil => rfl
  | cons e rest ih =>
    cases h : parse_filter (String.mk e) with
    | ok r =>
      obtain ⟨c, ps⟩ := r
      simp only [collectFilters, h, ih, List.filterMap_cons, Except.toOption,
        List.map_cons, List.flatten_cons]
    | error err =>
      simp only [collectFilters, h, ih, List.filterMap_cons, Except.toOption]

theorem countQ_pyJoin_AND (conds : List String) :
    countQ (pyJoin " AND " conds) = (conds.map countQ).sum := by
  rw [countQ, count_pyJoin (by decide)]
  have h : (fun s : String => s.data.count '?') = countQ := rfl
  rw [h]

theorem collect_count (es : List (List Char)) (hq : ∀ e ∈ es, '?' ∉ e) :
    ((collectFilters es).1.map countQ).sum = (collectFilters es).2.length := by
  induction es with
  | nil => rfl
  | cons e rest ih =>
    have hqe : '?' ∉ e := hq e (List.mem_cons_self e rest)
    have hrest := ih fun e' he' => hq e' (List.mem_cons_of_mem e he')
    cases h : parse_filter (String.mk e) with
    | ok r =>
      obtain ⟨c, ps⟩ := r
      have hcnt : countQ c = ps.length := parse_filter_count hqe h
      simp only [collectFilters, h, List.map_cons, List.sum_cons, List.length_append]
      omega
    | error err =>
      simp only [collectFilters, h]
      exact hrest

theorem string_data_ext {a b : String} (h : a.data = b.data) : a = b := by
  cases a; cases b; exact congrArg String.mk h

theorem pySplit2_exists_three {c : Char} {l : List Char}
    (h : (pySplit2 c l).length = 3) : ∃ x y z, pySplit2 c l = [x, y, z] := by
  cases h1 : splitFirst c l with
  | none => rw [pySplit2_eq_none h1] at h; simp at h
  | some p =>
    obtain ⟨a, r⟩ := p
    cases h2 : splitFirst c r with
    | none => rw [pySplit2_eq_one h1 h2] at h; simp at h
    | some q =>
      obtain ⟨b, r2⟩ := q
      exact ⟨a, b, r2, pySplit2_eq_two h1 h2⟩

theorem containsSub_strip_eq {k : List Char} (hk : k ≠ [])
    (hkp : ∀ x ∈ k, pyIsSpace x = false) (m : List Char) :
    containsSub k (stripChars m) = containsSub k m := by
  refine Bool.eq_iff_iff.mpr ?_
  rw [containsSub_iff, containsSub_iff]
  exact infix_stripChars_iff hk hkp

/-! ### The claims -/

/-- C1 (evidence of the code bug): on the input `"col.not.eq.5"` the parser
raises `UnsupportedOperatorError` instead of producing the negated
`!=`-equivalent fragment with integer parameter `5` that the specification
promises: `split('.', 2)` makes the operator segment `"not"`, which can never
carry the `"not."` prefix that `is_negated` strips, so the negation handling
is unreachable and the bare token `"not"` is rejected by the operator table. -/
theorem negated_eq_input_rejected :
    parse_filter "col.not.eq.5" = .error .unsupportedOperator := by
  rfl

/-- C9: whitespace-padding invariance — surrounding an expression with
whitespace does not change `parse_filter`'s outcome, because the whole
expression is stripped before splitting. -/
theorem parse_filter_strip_invariance (w1 w2 : List Char) (s : String)
    (h1 : ∀ c ∈ w1, pyIsSpace c = true) (h2 : ∀ c ∈ w2, pyIsSpace c = true) :
    parse_filter (String.mk (w1 ++ s.data ++ w2)) = parse_filter s := by
  rw [parse_filter, parse_filter]
  have hd : (String.mk (w1 ++ s.data ++ w2)).data = w1 ++ s.data ++ w2 := rfl
  rw [hd, stripChars_pad h1 h2]

theorem parse_filter_strip_invariance_witness :
    (∀ c ∈ (" " : String).data, pyIsSpace c = true) ∧
    parse_filter (String.mk ((" " : String).data ++ ("a.eq.1" : String).data ++
      (" " : String).data)) = parse_filter "a.eq.1" :=
  ⟨by decide, parse_filter_strip_invariance (" " : String).data (" " : String).data
    "a.eq.1" (by decide) (by decide)⟩

/-- C10: an input containing at least two dots never raises the
malformed-filter error, even with empty column or value segments; in
particular `"col.eq."` succeeds, producing `"col = ?"` with the single
parameter being the empty string. -/
theorem two_dots_never_malformed (s : String) (h : 2 ≤ s.data.count '.') :
    parse_filter s ≠ .error .malformedFilter ∧
    parse_filter "col.eq." = .ok ("col = ?", [PValue.vStr ""]) := by
  refine ⟨?_, by rfl⟩
  have hc : (stripChars s.data).count '.' = s.data.count '.' :=
    count_stripChars (by decide) _
  have hlen : (pySplit2 '.' (stripChars s.data)).length = 3 :=
    pySplit2_len3_iff.mpr (by omega)
  obtain ⟨x, y, z, hxyz⟩ := pySplit2_exists_three hlen
  rw [parse_filter]
  cases hop : get_sql_operator (is_negated y).2 with
  | none =>
    rw [parse_core_three_unsupported hxyz hop]
    intro hcon
    injection hcon with h'
    exact ParseError.noConfusion h'
  | some w =>
    obtain ⟨r, hr⟩ := parse_core_three_ok hxyz hop
    rw [hr]
    intro hcon
    exact Except.noConfusion hcon

theorem two_dots_never_malformed_witness :
    2 ≤ ("a.b.c" : String).data.count '.' ∧
    parse_filter "a.b.c" ≠ .error .malformedFilter :=
  ⟨by decide, (two_dots_never_malformed "a.b.c" (by decide)).1⟩

/-- C5: for inputs of the form `column.in.v1,…,vn` the parser splits the value
on commas, emits `column IN (?,…,?)` with exactly one placeholder per element,
and returns the raw (uncoerced) string elements as parameters in order; in
particular `"col.in.a,b,c"` yields exactly three placeholders and the
parameters `["a","b","c"]`. -/
theorem in_operator_split (col v : List Char)
    (hsp : ∀ c ∈ col, pyIsSpace c = false) (hdot : '.' ∉ col)
    (hvs : ∀ c ∈ v, pyIsSpace c = false) :
    parse_filter (String.mk (col ++ (".in." : String).data ++ v)) =
      .ok (String.mk col ++ " IN (" ++
            pyJoin "," ((pySplitAll ',' v).map fun _ => "?") ++ ")",
           (pySplitAll ',' v).map fun x => PValue.vStr (String.mk x)) ∧
    countQ (pyJoin "," ((pySplitAll ',' v).map fun _ => "?")) =
      (pySplitAll ',' v).length ∧
    parse_filter "col.in.a,b,c" =
      .ok ("col IN (?,?,?)", [PValue.vStr "a", PValue.vStr "b", PValue.vStr "c"]) := by
  refine ⟨?_, countQ_placeholders _, by rfl⟩
  rw [parse_filter]
  have hd : (String.mk (col ++ (".in." : String).data ++ v)).data =
      col ++ (".in." : String).data ++ v := rfl
  rw [hd]
  have hmid : ∀ c ∈ (".in." : String).data, pyIsSpace c = false := by decide
  have hall : ∀ c ∈ col ++ (".in." : String).data ++ v, pyIsSpace c = false := by
    intro c hc
    rcases List.mem_append.mp hc with hc1 | hc2
    · rcases List.mem_append.mp hc1 with hca | hcm
      · exact hsp c hca
      · exact hmid c hcm
    · exact hvs c hc2
  rw [stripChars_of_no_space hall]
  have hsplit : pySplit2 '.' (col ++ (".in." : String).data ++ v) =
      [col, ("in" : String).data, v] := by
    have he : col ++ (".in." : String).data ++ v =
        col ++ '.' :: (("in" : String).data ++ '.' :: v) := by
      rw [List.append_assoc]
      exact rfl
    rw [he]
    exact pySplit2_of_decomp hdot (by decide)
  have hbase : (is_negated ("in" : String).data).2 = ("in" : String).data := by decide
  rw [parse_core_three_in hsplit hbase]
  have hneg : (is_negated ("in" : String).data).1 = false := by decide
  rw [hneg]
  have hstr : String.mk col ++ " " ++ negStr false ++ "IN" ++ " (" ++
      pyJoin "," ((pySplitAll ',' v).map fun _ => "?") ++ ")" =
      String.mk col ++ " IN (" ++
      pyJoin "," ((pySplitAll ',' v).map fun _ => "?") ++ ")" := by
    apply string_data_ext
    simp only [String.data_append, List.append_assoc]
    rfl
  rw [hstr]

theorem in_operator_split_witness :
    (∀ c ∈ ("col" : String).data, pyIsSpace c = false) ∧ '.' ∉ ("col" : String).data ∧
    (∀ c ∈ ("a,b,c" : String).data, pyIsSpace c = false) ∧
    parse_filter (String.mk (("col" : String).data ++ (".in." : String).data ++
        ("a,b,c" : String).data)) =
      .ok (String.mk ("col" : String).data ++ " IN (" ++
            pyJoin "," ((pySplitAll ',' ("a,b,c" : String).data).map fun _ => "?") ++ ")",
           (pySplitAll ',' ("a,b,c" : String).data).map fun x => PValue.vStr (String.mk x)) :=
  ⟨by decide, by decide, by decide,
    (in_operator_split ("col" : String).data ("a,b,c" : String).data
      (by decide) (by decide) (by decide)).1⟩

/-- C4: value coercion on the single-parameter path follows the precedence
null / boolean / ASCII-digit integer / float / unchanged string
(`convert_value` agrees with the spec-worded `coerce_spec`), the coerced value
is the single bound parameter on every non-`in`, non-`is`-literal path, and the
coercion is never applied to `in`-list elements (raw strings) or to the
`is`-literal path (no parameters). -/
theorem value_coercion_paths (s : String) (col op v : List Char) (w : String)
    (hparts : pySplit2 '.' (stripChars s.data) = [col, op, v]) :
    convert_value v = coerce_spec v ∧
    (get_sql_operator (is_negated op).2 = some w → (is_negated op).2 ≠ ("in" : String).data →
      ¬((is_negated op).2 = ("is" : String).data ∧ (v.map Char.toLower = ("null" : String).data ∨
        v.map Char.toLower = ("true" : String).data ∨
        v.map Char.toLower = ("false" : String).data)) →
      parse_filter s = .ok (String.mk col ++ " " ++ negStr (is_negated op).1 ++ w ++ " ?",
        [convert_value v])) ∧
    ((is_negated op).2 = ("in" : String).data →
      parse_filter s = .ok (String.mk col ++ " " ++ negStr (is_negated op).1 ++ "IN" ++ " (" ++
          pyJoin "," ((pySplitAll ',' v).map fun _ => "?") ++ ")",
        (pySplitAll ',' v).map fun x => PValue.vStr (String.mk x))) ∧
    ((is_negated op).2 = ("is" : String).data → (v.map Char.toLower = ("null" : String).data ∨
        v.map Char.toLower = ("true" : String).data ∨
        v.map Char.toLower = ("false" : String).data) →
      parse_filter s = .ok (String.mk col ++ " " ++ negStr (is_negated op).1 ++ "IS" ++ " " ++
        String.mk (v.map Char.toUpper), [])) := by
  refine ⟨convert_eq_coerce v, ?_, ?_, ?_⟩
  · intro hop hnin hnis
    rw [parse_filter]
    exact parse_core_three_single hparts hop hnin hnis
  · intro hin
    rw [parse_filter]
    exact parse_core_three_in hparts hin
  · intro his hv
    rw [parse_filter]
    exact parse_core_three_is_lit hparts his hv

theorem value_coercion_paths_witness :
    pySplit2 '.' (stripChars ("c.eq.5" : String).data) =
      [("c" : String).data, ("eq" : String).data, ("5" : String).data] ∧
    get_sql_operator (is_negated ("eq" : String).data).2 = some "=" ∧
    parse_filter "c.eq.5" = .ok (String.mk ("c" : String).data ++ " " ++
      negStr (is_negated ("eq" : String).data).1 ++ "=" ++ " ?",
      [convert_value ("5" : String).data]) := by
  refine ⟨by decide, by decide, ?_⟩
  exact (value_coercion_paths "c.eq.5" ("c" : String).data ("eq" : String).data
    ("5" : String).data "=" (by decide)).2.1 (by decide) (by decide) (by decide)

/-- C6 counterexample: on the input `"a?.eq.1"` the parser succeeds with the
fragment `"a? = ?"`, which contains two `?` characters while the parameter
list has exactly one element — the column text itself can contain `?`, so the
literal placeholder-count invariant fails. -/
theorem placeholder_invariant_cex :
    parse_filter "a?.eq.1" = .ok ("a? = ?", [PValue.vInt 1]) ∧
    countQ "a? = ?" = 2 ∧ ¬ countQ "a? = ?" = ([PValue.vInt 1] : List PValue).length :=
  ⟨by rfl, by decide, by decide⟩

/-- C6 amended: for every input that itself contains no `?` character, the
number of `?` placeholders in the fragment returned by `parse_filter` equals
the length of its parameter list, and likewise for the clause and parameter
list returned by `parse_raw_filters`. -/
theorem placeholder_invariant_amended (s : String) (hq : '?' ∉ s.data) :
    (∀ c ps, parse_filter s = .ok (c, ps) → countQ c = ps.length) ∧
    (∀ w ps, parse_raw_filters s = (w, ps) → countQ w = ps.length) := by
  constructor
  · intro c ps h
    exact parse_filter_count hq h
  · intro w ps h
    simp only [parse_raw_filters] at h
    by_cases hs : s = ""
    · rw [if_pos hs] at h
      injection h with h1 h2
      subst h1; subst h2
      rfl
    · rw [if_neg hs] at h
      have hqe : ∀ e ∈ pySplitAll ',' s.data, '?' ∉ e :=
        fun e he hm => hq (pySplitAll_subset e he '?' hm)
      have hsum := collect_count (pySplitAll ',' s.data) hqe
      by_cases hcnil : (collectFilters (pySplitAll ',' s.data)).1 = []
      · rw [if_pos hcnil] at h
        injection h with h1 h2
        subst h1; subst h2
        rfl
      · rw [if_neg hcnil] at h
        injection h with h1 h2
        subst h1; subst h2
        rw [countQ_pyJoin_AND]
        exact hsum

theorem placeholder_invariant_amended_witness :
    ('?' ∉ ("a.eq.1" : String).data) ∧
    countQ "a = ?" = ([PValue.vInt 1] : List PValue).length :=
  ⟨by decide, (placeholder_invariant_amended "a.eq.1" (by decide)).1 "a = ?"
    [PValue.vInt 1] (by rfl)⟩

/-- C3: `parse_raw_filters` is best-effort — every comma-delimited
sub-expression is parsed independently, failing sub-expressions are dropped,
the surviving fragments are joined with `" AND "` in input order with their
parameters concatenated in the same order, and the result is the empty clause
with no parameters when the input is empty or nothing parses; in particular
`"a.eq.1,bogus,b.gt.2"` yields a two-clause AND'd result dropping the
malformed middle clause. -/
theorem parse_raw_filters_best_effort (s : String) :
    parse_raw_filters s =
      (pyJoin " AND " (((pySplitAll ',' s.data).filterMap fun e =>
          (parse_filter (String.mk e)).toOption).map Prod.fst),
       (((pySplitAll ',' s.data).filterMap fun e =>
          (parse_filter (String.mk e)).toOption).map Prod.snd).flatten) ∧
    parse_raw_filters "a.eq.1,bogus,b.gt.2" =
      ("a = ? AND b > ?", [PValue.vInt 1, PValue.vInt 2]) ∧
    parse_raw_filters "" = ("", []) ∧
    parse_raw_filters "bogus" = ("", []) := by
  refine ⟨?_, by rfl, by rfl, by rfl⟩
  by_cases hs : s = ""
  · subst hs
    rfl
  · simp only [parse_raw_filters, if_neg hs, collectFilters_eq]
    by_cases hc : ((pySplitAll ',' s.data).filterMap fun e =>
        (parse_filter (String.mk e)).toOption).map Prod.fst = []
    · rw [if_pos hc, hc]
      have hfm : ((pySplitAll ',' s.data).filterMap fun e =>
          (parse_filter (String.mk e)).toOption) = [] := List.map_eq_nil_iff.mp hc
      rw [hfm]
      rfl
    · rw [if_neg hc]

/-- C7: `update_records` first runs the pre-check select with the same
filters; when it matches no rows the call returns the empty result without
issuing any UPDATE statement, and when it matches, the UPDATE is executed with
the SET-clause parameters preceding the WHERE parameters and the
backend-reported affected-row count is returned. -/
theorem update_records_zero_match (db : Backend) (table : String)
    (data filters : List (String × PValue)) (raw_filters : Option String) :
    (query_table db table filters raw_filters = [] →
      update_records db table data filters raw_filters = (.emptyList, [])) ∧
    (query_table db table filters raw_filters ≠ [] →
      update_records db table data filters raw_filters =
        (.count (db.runUpdate (update_query table data filters raw_filters)
            (data.map Prod.snd ++ (build_where filters raw_filters).2)),
         [(update_query table data filters raw_filters,
           data.map Prod.snd ++ (build_where filters raw_filters).2)])) := by
  constructor
  · intro h
    simp only [update_records]
    rw [h, if_pos rfl]
  · intro h
    simp only [update_records]
    rw [if_neg h]

theorem update_records_zero_match_witness :
    query_table ⟨fun _ _ => [], fun _ _ => 0⟩ "t" [] none = [] ∧
    update_records ⟨fun _ _ => [], fun _ _ => 0⟩ "t" [("a", PValue.vInt 1)] [] none =
      (.emptyList, []) ∧
    query_table ⟨fun _ _ => [[]], fun _ _ => 7⟩ "t" [] none ≠ [] ∧
    update_records ⟨fun _ _ => [[]], fun _ _ => 7⟩ "t" [("a", PValue.vInt 1)] [] none =
      (.count 7, [("UPDATE t SET a = ?", [PValue.vInt 1])]) := by
  refine ⟨rfl, ?_, ?_, ?_⟩
  · exact (update_records_zero_match ⟨fun _ _ => [], fun _ _ => 0⟩ "t"
      [("a", PValue.vInt 1)] [] none).1 rfl
  · intro hcon
    exact List.noConfusion hcon
  · have h := (update_records_zero_match ⟨fun _ _ => [[]], fun _ _ => 7⟩ "t"
      [("a", PValue.vInt 1)] [] none).2 (fun hcon => List.noConfusion hcon)
    rw [h]
    rfl

/-- C8: with the flag false, `execute_sql` fails with `UnsafeOperationError`
exactly when the lowercased statement text contains one of the five
denylisted substrings, and otherwise executes the statement; with the flag
true the statement is always attempted against the backend.  In particular
`"SELECT 1"` passes and `"DROP TABLE x"` is rejected. -/
theorem execute_sql_denylist (db : Backend) (query : String) (params : List PValue) :
    (execute_sql db query params false =
      if UNSAFE_KEYWORDS.any (fun k => containsSub k.data (query.data.map Char.toLower)) then
        (.error .destructiveOperation, [])
      else (.ok (db.runSelect query params), [(query, params)])) ∧
    execute_sql db query params true = (.ok (db.runSelect query params), [(query, params)]) ∧
    execute_sql db "SELECT 1" [] false = (.ok (db.runSelect "SELECT 1" []), [("SELECT 1", [])]) ∧
    execute_sql db "DROP TABLE x" [] false = (.error .destructiveOperation, []) := by
  have hany : ∀ m : List Char,
      (UNSAFE_KEYWORDS.any fun k => containsSub k.data (stripChars m)) =
        UNSAFE_KEYWORDS.any fun k => containsSub k.data m := by
    intro m
    simp only [UNSAFE_KEYWORDS, List.any_cons, List.any_nil]
    rw [containsSub_strip_eq (k := ("drop" : String).data) (by decide) (by decide),
      containsSub_strip_eq (k := ("truncate" : String).data) (by decide) (by decide),
      containsSub_strip_eq (k := ("delete" : String).data) (by decide) (by decide),
      containsSub_strip_eq (k := ("update" : String).data) (by decide) (by decide),
      containsSub_strip_eq (k := ("alter" : String).data) (by decide) (by decide)]
  refine ⟨?_, by rfl, by rfl, by rfl⟩
  have e1 : execute_sql db query params false =
      if UNSAFE_KEYWORDS.any (fun k =>
          containsSub k.data (stripChars (query.data.map Char.toLower))) then
        (.error .destructiveOperation, [])
      else (.ok (db.runSelect query params), [(query, params)]) := by
    simp only [execute_sql, if_true]
  rw [e1, hany]

/-- C2: the raises-iff contract of `parse_filter` — it fails with
`MalformedFilterError` exactly when splitting on the first two dots yields
fewer than three parts, fails with `UnsupportedOperatorError` exactly when the
negation-stripped base operator token of the three-part split is not one of
the ten entries of the fixed operator table, and succeeds on every other
input. -/
theorem parse_filter_error_contract (s : String) :
    (parse_filter s = .error .malformedFilter ↔ (pySplit2 '.' s.data).length < 3) ∧
    (parse_filter s = .error .unsupportedOperator ↔
      ∃ col op v, pySplit2 '.' (stripChars s.data) = [col, op, v] ∧
        (is_negated op).2 ∉ OPERATORS_keys.map String.data) ∧
    ((∃ r, parse_filter s = .ok r) ↔
      ∃ col op v, pySplit2 '.' (stripChars s.data) = [col, op, v] ∧
        (is_negated op).2 ∈ OPERATORS_keys.map String.data) := by
  have hcnt : (stripChars s.data).count '.' = s.data.count '.' :=
    count_stripChars (by decide) _
  have hlen_iff : (pySplit2 '.' s.data).length < 3 ↔
      ¬ 2 ≤ (stripChars s.data).count '.' := by
    rw [hcnt]
    constructor
    · intro hlen h2
      have h3 := pySplit2_len3_iff.mpr h2
      omega
    · intro h2
      have hle := pySplit2_len_le '.' s.data
      have hne : (pySplit2 '.' s.data).length ≠ 3 := fun he => h2 (pySplit2_len3_iff.mp he)
      omega
  rw [parse_filter]
  cases h1 : splitFirst '.' (stripChars s.data) with
  | none =>
    have hc0 : (stripChars s.data).count '.' = 0 :=
      List.count_eq_zero.mpr (splitFirst_none.mp h1)
    rw [parse_core_shape1 h1]
    have hno3 : ∀ col op v : List Char, pySplit2 '.' (stripChars s.data) ≠ [col, op, v] := by
      intro col op v hpp
      rw [pySplit2_eq_none h1] at hpp
      injection hpp with ha hb
      exact List.noConfusion hb
    refine ⟨iff_of_true rfl (hlen_iff.mpr (by omega)), ?_, ?_⟩
    · refine iff_of_false ?_ ?_
      · intro hcon; injection hcon with h'; exact ParseError.noConfusion h'
      · rintro ⟨col, op, v, hpp, _⟩; exact hno3 col op v hpp
    · refine iff_of_false ?_ ?_
      · rintro ⟨r, hr⟩; exact Except.noConfusion hr
      · rintro ⟨col, op, v, hpp, _⟩; exact hno3 col op v hpp
  | some p =>
    obtain ⟨a, r⟩ := p
    have hca := count_of_splitFirst h1
    cases h2 : splitFirst '.' r with
    | none =>
      have hc0 : r.count '.' = 0 := List.count_eq_zero.mpr (splitFirst_none.mp h2)
      rw [parse_core_shape2 h1 h2]
      have hno3 : ∀ col op v : List Char, pySplit2 '.' (stripChars s.data) ≠ [col, op, v] := by
        intro col op v hpp
        rw [pySplit2_eq_one h1 h2] at hpp
        injection hpp with ha hb
        injection hb with hb1 hb2
        exact List.noConfusion hb2
      refine ⟨iff_of_true rfl (hlen_iff.mpr (by omega)), ?_, ?_⟩
      · refine iff_of_false ?_ ?_
        · intro hcon; injection hcon with h'; exact ParseError.noConfusion h'
        · rintro ⟨col, op, v, hpp, _⟩; exact hno3 col op v hpp
      · refine iff_of_false ?_ ?_
        · rintro ⟨r', hr'⟩; exact Except.noConfusion hr'
        · rintro ⟨col, op, v, hpp, _⟩; exact hno3 col op v hpp
    | some q =>
      obtain ⟨b, r2⟩ := q
      have hcb := count_of_splitFirst h2
      have hparts := pySplit2_eq_two h1 h2
      have hnlt : ¬ (pySplit2 '.' s.data).length < 3 := by
        intro hl
        exact (hlen_iff.mp hl) (by omega)
      have hforce : ∀ col op v : List Char,
          pySplit2 '.' (stripChars s.data) = [col, op, v] →
          col = a ∧ op = b ∧ v = r2 := by
        intro col op v hpp
        rw [hparts] at hpp
        injection hpp with e1 h'
        injection h' with e2 h''
        injection h'' with e3 _
        exact ⟨e1.symm, e2.symm, e3.symm⟩
      cases hop : get_sql_operator (is_negated b).2 with
      | none =>
        rw [parse_core_three_unsupported hparts hop]
        refine ⟨iff_of_false ?_ hnlt, iff_of_true rfl
          ⟨a, b, r2, hparts, get_sql_operator_none_iff.mp hop⟩, iff_of_false ?_ ?_⟩
        · intro hcon; injection hcon with h'; exact ParseError.noConfusion h'
        · rintro ⟨r', hr'⟩; exact Except.noConfusion hr'
        · rintro ⟨col, op, v, hpp, hmem⟩
          obtain ⟨rfl, rfl, rfl⟩ := hforce col op v hpp
          exact (get_sql_operator_none_iff.mp hop) hmem
      | some w =>
        obtain ⟨rr, hrr⟩ := parse_core_three_ok hparts hop
        rw [hrr]
        have hmem : (is_negated b).2 ∈ OPERATORS_keys.map String.data := by
          by_contra hn
          rw [get_sql_operator_none_iff.mpr hn] at hop
          exact Option.noConfusion hop
        refine ⟨iff_of_false ?_ hnlt, iff_of_false ?_ ?_, iff_of_true ⟨rr, rfl⟩
          ⟨a, b, r2, hparts, hmem⟩⟩
        · intro hcon; exact Except.noConfusion hcon
        · intro hcon; exact Except.noConfusion hcon
        · rintro ⟨col, op, v, hpp, hnm⟩
          obtain ⟨rfl, rfl, rfl⟩ := hforce col op v hpp
          exact hnm hmem

theorem parse_filter_error_contract_witness :
    parse_filter "x" = .error .malformedFilter :=
  (parse_filter_error_contract "x").1.mpr (by decide)

theorem parse_raw_filters_best_effort_witness :
    parse_raw_filters "a.eq.1" =
      (pyJoin " AND " (((pySplitAll ',' ("a.eq.1" : String).data).filterMap fun e =>
          (parse_filter (String.mk e)).toOption).map Prod.fst),
       (((pySplitAll ',' ("a.eq.1" : String).data).filterMap fun e =>
          (parse_filter (String.mk e)).toOption).map Prod.snd).flatten) :=
  (parse_raw_filters_best_effort "a.eq.1").1

theorem execute_sql_denylist_witness :
    execute_sql ⟨fun _ _ => [], fun _ _ => 0⟩ "SELECT 1" [] true =
      (.ok ((⟨fun _ _ => [], fun _ _ => 0⟩ : Backend).runSelect "SELECT 1" []),
       [("SELECT 1", [])]) :=
  (execute_sql_denylist ⟨fun _ _ => [], fun _ _ => 0⟩ "SELECT 1" []).2.1

end MrSqlite
